import Mathlib

/-!
Verification development for the egov-law-mcp law-document toolkit.

The TypeScript sources are embedded shallowly:

* Parsed XML documents (the output of the XML decoder used by
  `src/api/parser.ts`) are modelled by the JSON-like type `XVal`:
  decoded text nodes are strings or integers, elements are key-ordered
  objects, repeated tags are arrays.  JavaScript truthiness, `String(x)`
  coercion and `Number(x)` coercion (at integer values) are modelled
  explicitly.
* The pure parsing and rendering functions of `src/api/parser.ts`
  (`extractText`, `extractSentenceText`, `extractArticleContent`,
  `findArticle`, `normalizeArticleNum`, `extractToc`, `parseLawText`, ...)
  are transliterated over `XVal`.
* The disk cache of `src/cache/law-cache.ts` is modelled twice, at two
  levels of abstraction: a pure store model (`LawCache.get`/`LawCache.set`
  over a key-indexed store) for the functional properties, and a
  fault-injecting model (`LawCache.ioGet`/`LawCache.ioSet`) that mirrors
  which filesystem faults each operation catches and which it rethrows.
* The retry loop of `src/api/client.ts` (`fetchWithRetry`, `getArticle`)
  is modelled with an oracle assigning an HTTP outcome to every attempt;
  the model additionally counts the number of network fetches performed.
-/

set_option maxHeartbeats 4000000
set_option maxRecDepth 100000

namespace Egov

/-- Decoded XML values as produced by the XML decoder feeding
`src/api/parser.ts`: strings, numbers, arrays and key-ordered objects. -/
inductive XVal : Type where
  | str : String → XVal
  | num : Int → XVal
  | arr : List XVal → XVal
  | obj : List (String × XVal) → XVal

mutual

/-- Size measure used for termination of the recursive parser functions. -/
def xsize : XVal → Nat
  | .str _ => 1
  | .num _ => 1
  | .arr xs => 1 + xsizeList xs
  | .obj fs => 1 + xsizeFields fs

def xsizeList : List XVal → Nat
  | [] => 0
  | x :: rest => 1 + xsize x + xsizeList rest

def xsizeFields : List (String × XVal) → Nat
  | [] => 0
  | (_, v) :: rest => 1 + xsize v + xsizeFields rest

end

/-- JavaScript property lookup `o[key]` on a decoded object field list. -/
def lookupField : List (String × XVal) → String → Option XVal
  | [], _ => none
  | (k, v) :: rest, key => if k = key then some v else lookupField rest key

/-- JavaScript property access `node[key]`; `undefined` on non-objects. -/
def getField (v : XVal) (key : String) : Option XVal :=
  match v with
  | .obj fs => lookupField fs key
  | _ => none

/-- `ensureArray` from `src/api/parser.ts`: wrap an absent value as `[]`,
an array as itself, and any other value as a one-element array. -/
def ensureArray : Option XVal → List XVal
  | none => []
  | some (.arr xs) => xs
  | some v => [v]

/-- JavaScript truthiness of a decoded value: empty strings and numeric
zero are falsy, every array and object is truthy. -/
def truthy : XVal → Bool
  | .str s => s ≠ ""
  | .num n => n ≠ 0
  | .arr _ => true
  | .obj _ => true

/-- JavaScript truthiness where `none` models `undefined`. -/
def truthyOpt : Option XVal → Bool
  | none => false
  | some v => truthy v

/-- JavaScript `a || b` where `a` may be `undefined` and the result is known
to be a value. -/
def jsOrElse (a : Option XVal) (b : XVal) : XVal :=
  match a with
  | some x => if truthy x then x else b
  | none => b

/-- JavaScript `a || b` where both operands may be `undefined`. -/
def jsOrOpt (a b : Option XVal) : Option XVal :=
  match a with
  | some x => if truthy x then some x else b
  | none => b

/-- Decimal rendering of an integer, as JavaScript `String(n)`. -/
def intRepr (n : Int) : String :=
  if n < 0 then "-" ++ Nat.repr n.natAbs else Nat.repr n.natAbs

mutual

/-- JavaScript `String(v)` coercion on decoded values; an array is the
comma-join of its coerced elements, an object is `[object Object]`. -/
def jsString : XVal → String
  | .str s => s
  | .num n => intRepr n
  | .arr xs => jsStringList xs
  | .obj _ => "[object Object]"

def jsStringList : List XVal → String
  | [] => ""
  | [x] => jsString x
  | x :: rest => jsString x ++ "," ++ jsStringList rest

end

/-- JavaScript `String(v)` where `none` models `undefined`. -/
def jsStringOpt : Option XVal → String
  | none => "undefined"
  | some v => jsString v

/-- Integer reading of a decimal digit character. -/
def digitVal (c : Char) : Nat := c.toNat - '0'.toNat

/-- Leading and trailing whitespace removal on a character list (the
trimming `Number(string)` performs before reading digits). -/
def trimChars (cs : List Char) : List Char :=
  ((cs.dropWhile Char.isWhitespace).reverse.dropWhile Char.isWhitespace).reverse

/-- JavaScript `Number(s)` on a string, restricted to integer values:
an all-whitespace string reads as `0`, an optionally signed digit run reads
as the corresponding integer, anything else is `NaN` (`none`). -/
def jsStringToNumber (s : String) : Option Int :=
  let t := trimChars s.data
  match t with
  | [] => some 0
  | '-' :: rest =>
    if rest ≠ [] ∧ rest.all (fun c => '0' ≤ c && c ≤ '9') then
      some (-(rest.foldl (fun acc c => 10 * acc + digitVal c) 0 : Nat))
    else none
  | _ =>
    if t.all (fun c => '0' ≤ c && c ≤ '9') then
      some ((t.foldl (fun acc c => 10 * acc + digitVal c) 0 : Nat))
    else none

/-- JavaScript `Number(v)` coercion at integer values; `none` models `NaN`
(so `none` compares unequal to everything, as `NaN` does). -/
def jsNumber : Option XVal → Option Int
  | none => none
  | some (.num n) => some n
  | some (.str s) => jsStringToNumber s
  | some (.arr xs) => jsStringToNumber (jsString (.arr xs))
  | some (.obj _) => none

/-! ## Size lemmas for termination -/

theorem xsize_pos (v : XVal) : 1 ≤ xsize v := by
  cases v <;> simp [xsize]

theorem xsizeList_mem {x : XVal} {xs : List XVal} (h : x ∈ xs) :
    xsize x < xsizeList xs := by
  induction xs with
  | nil => simp at h
  | cons y rest ih =>
    rcases List.mem_cons.mp h with h1 | h2
    · subst h1; simp [xsizeList]; omega
    · have := ih h2; simp [xsizeList]; omega

theorem xsizeFields_mem {p : String × XVal} {fs : List (String × XVal)}
    (h : p ∈ fs) : xsize p.2 < xsizeFields fs := by
  induction fs with
  | nil => simp at h
  | cons q rest ih =>
    rcases List.mem_cons.mp h with h1 | h2
    · subst h1; obtain ⟨k, v⟩ := p; simp [xsizeFields]; omega
    · have := ih h2; obtain ⟨k, v⟩ := q; simp [xsizeFields]; omega

theorem lookupField_xsize {fs : List (String × XVal)} {key : String} {w : XVal}
    (h : lookupField fs key = some w) : xsize w < xsizeFields fs := by
  induction fs with
  | nil => simp [lookupField] at h
  | cons p rest ih =>
    obtain ⟨k, v⟩ := p
    simp only [lookupField] at h
    split at h
    · cases h; simp [xsizeFields]; omega
    · have := ih h; simp [xsizeFields]; omega

theorem getField_xsize {v : XVal} {key : String} {w : XVal}
    (h : getField v key = some w) : xsize w + 2 ≤ xsize v := by
  cases v <;> simp only [getField] at h
  · cases h
  · cases h
  · cases h
  case obj fs =>
    have := lookupField_xsize h
    simp [xsize]
    omega

theorem xsizeList_ensureArray {o : Option XVal} {n : Nat}
    (h : ∀ w, o = some w → xsize w + 2 ≤ n) (hn : 1 ≤ n) :
    xsizeList (ensureArray o) < n := by
  cases o with
  | none => simpa [ensureArray, xsizeList] using hn
  | some w =>
    have hw := h w rfl
    cases w <;> simp only [ensureArray, xsizeList, xsize] at hw ⊢ <;> omega

theorem xsizeList_ensureArray_getField (v : XVal) (key : String) :
    xsizeList (ensureArray (getField v key)) < xsize v :=
  xsizeList_ensureArray (fun _ hw => getField_xsize hw) (xsize_pos v)

theorem jsOrOpt_eq_or {a b r : Option XVal} (h : jsOrOpt a b = r) :
    r = a ∨ r = b := by
  cases a with
  | none => right; simpa [jsOrOpt] using h.symm
  | some x =>
    simp only [jsOrOpt] at h
    split at h
    · left; exact h.symm
    · right; exact h.symm

theorem xsizeList_ensureArray_jsOrOpt (v : XVal) (k1 k2 : String) :
    xsizeList (ensureArray (jsOrOpt (getField v k1) (getField v k2))) < xsize v := by
  refine xsizeList_ensureArray (fun w hw => ?_) (xsize_pos v)
  rcases jsOrOpt_eq_or hw with h | h
  · exact getField_xsize h.symm
  · exact getField_xsize h.symm

/-! ## Numeral normalization (`normalizeArticleNum`, parser.ts 537-582) -/

/-- Kanji numeral table of `normalizeArticleNum`: digit kanji 1-9 plus the
multipliers ten and hundred.  There is no entry for thousand. -/
def kanjiVal : Char → Option Nat
  | '一' => some 1
  | '二' => some 2
  | '三' => some 3
  | '四' => some 4
  | '五' => some 5
  | '六' => some 6
  | '七' => some 7
  | '八' => some 8
  | '九' => some 9
  | '十' => some 10
  | '百' => some 100
  | _ => none

/-- The two-accumulator evaluation loop of `normalizeArticleNum`:
`result` is the running total and `temp` the pending digit; unrecognized
characters are skipped, and the leftover pending digit is added at the end. -/
def evalKanjiAux : List Char → Nat → Nat → Nat
  | [], result, temp => result + temp
  | c :: rest, result, temp =>
    match kanjiVal c with
    | none => evalKanjiAux rest result temp
    | some 10 => evalKanjiAux rest (result + (if temp = 0 then 10 else temp * 10)) 0
    | some 100 => evalKanjiAux rest (result + (if temp = 0 then 100 else temp * 100)) 0
    | some n => evalKanjiAux rest result n

/-- ASCII decimal digit test, as the regular expression class `\d`. -/
def isDigitChar (c : Char) : Bool := '0' ≤ c && c ≤ '9'

/-- First maximal run of ASCII digits in a character list; models the
match of the regular expression `\d+` against the string. -/
def firstDigitRun : List Char → Option (List Char)
  | [] => none
  | c :: rest =>
    if isDigitChar c then some (c :: rest.takeWhile isDigitChar)
    else firstDigitRun rest

/-- Greedy group of `第(.+)条` at a fixed start: the group runs to the last
`条` reachable without crossing a newline, and must be nonempty. -/
def greedyGroup (cs : List Char) : Option (List Char) :=
  let pre := cs.takeWhile (fun c => c ≠ '\n')
  match pre.reverse.findIdx? (fun c => c == '条') with
  | none => none
  | some i =>
    let k := pre.length - 1 - i
    if 1 ≤ k then some (pre.take k) else none

/-- Leftmost match of the regular expression `第(.+)条`, returning the
captured group. -/
def kanjiMatchAux : List Char → Option (List Char)
  | [] => none
  | c :: rest =>
    if c = '第' then
      match greedyGroup rest with
      | some g => some g
      | none => kanjiMatchAux rest
    else kanjiMatchAux rest

/-- `normalizeArticleNum` from `src/api/parser.ts`: an arabic digit run is
returned as-is; otherwise the kanji numeral between `第` and `条` is
evaluated; otherwise the input is returned unchanged. -/
def normalizeArticleNum (articleStr : String) : String :=
  match firstDigitRun articleStr.data with
  | some run => String.mk run
  | none =>
    match kanjiMatchAux articleStr.data with
    | none => articleStr
    | some g => Nat.repr (evalKanjiAux g 0 0)

/-- Modelled from the spec: the conventional positional kanji digit used by
the spec's `render_kanji` generator (values 1-9). -/
def digitKanji : Nat → String
  | 1 => "一"
  | 2 => "二"
  | 3 => "三"
  | 4 => "四"
  | 5 => "五"
  | 6 => "六"
  | 7 => "七"
  | 8 => "八"
  | 9 => "九"
  | _ => ""

/-- Modelled from the spec: `render_kanji`, the conventional positional
kanji rendering of a decimal value up to 9999 (thousands, hundreds, tens,
ones; a unit multiplier is written without a leading `一`). -/
def renderKanji (v : Nat) : String :=
  (if v / 1000 % 10 = 0 then ""
   else (if v / 1000 % 10 = 1 then "" else digitKanji (v / 1000 % 10)) ++ "千") ++
  (if v / 100 % 10 = 0 then ""
   else (if v / 100 % 10 = 1 then "" else digitKanji (v / 100 % 10)) ++ "百") ++
  (if v / 10 % 10 = 0 then ""
   else (if v / 10 % 10 = 1 then "" else digitKanji (v / 10 % 10)) ++ "十") ++
  digitKanji (v % 10)

/-- Modelled from the spec: a kanji article designator for value `v`,
written between the fixed prefix marker `第` and suffix marker `条`. -/
def renderKanjiArticle (v : Nat) : String := "第" ++ renderKanji v ++ "条"

/-! ## Text extraction (`extractText`, parser.ts 621-641) -/

/-- Size of an optional decoded value (`undefined` counts as zero). -/
def xsizeOpt : Option XVal → Nat
  | none => 0
  | some v => xsize v

mutual

/-- `extractText` from `src/api/parser.ts`: a falsy node yields `""`, a
string is returned as-is, a number is decimally rendered; an object with a
truthy `#text` property yields only that property's string coercion, and
otherwise the values of the object (or the elements of an array) are
concatenated in field order. -/
def extractText (node : Option XVal) : String :=
  match node with
  | none => ""
  | some v =>
    if truthy v = false then ""
    else
      match v with
      | .str s => s
      | .num n => intRepr n
      | .obj fs =>
        match lookupField fs "#text" with
        | some t =>
          if truthy t then jsString t else String.join (extractValFields fs)
        | none => String.join (extractValFields fs)
      | .arr xs => String.join (extractValList xs)
termination_by 2 * xsizeOpt node
decreasing_by
  all_goals simp_wf
  all_goals simp [xsizeOpt, xsize]
  all_goals omega

/-- One pass of the value loop inside `extractText`: strings contribute
themselves, numbers are skipped (no branch of the loop handles them),
arrays contribute the extraction of each element, and objects recurse. -/
def extractVal (v : XVal) : String :=
  match v with
  | .str s => s
  | .num _ => ""
  | .arr xs => String.join (extractTextList xs)
  | .obj fs => extractText (some (.obj fs))
termination_by 2 * xsize v + 1
decreasing_by
  all_goals simp_wf
  all_goals simp [xsizeOpt, xsize]
  all_goals omega

/-- The extracted contributions of an object's field values, in order. -/
def extractValFields : List (String × XVal) → List String
  | [] => []
  | (_, v) :: rest => extractVal v :: extractValFields rest
termination_by fs => 2 * xsizeFields fs + 1
decreasing_by
  all_goals simp_wf
  all_goals simp [xsizeFields]
  all_goals omega

/-- The extracted contributions of an array's elements, in order. -/
def extractValList : List XVal → List String
  | [] => []
  | x :: rest => extractVal x :: extractValList rest
termination_by xs => 2 * xsizeList xs + 1
decreasing_by
  all_goals simp_wf
  all_goals simp [xsizeList]
  all_goals omega

/-- `extractText` mapped over a list (the array branch of the loop). -/
def extractTextList : List XVal → List String
  | [] => []
  | x :: rest => extractText (some x) :: extractTextList rest
termination_by xs => 2 * xsizeList xs + 2
decreasing_by
  all_goals simp_wf
  all_goals simp [xsizeOpt, xsizeList]
  all_goals omega

end

/-- `extractSentenceText` from `src/api/parser.ts`: a falsy field yields
`""`, a literal string is returned as-is, and otherwise the `Sentence`
member (or, when falsy, the field itself) is array-normalized and the
extraction of each element is concatenated. -/
def extractSentenceText (sentence : Option XVal) : String :=
  match sentence with
  | none => ""
  | some v =>
    if truthy v = false then ""
    else
      match v with
      | .str s => s
      | _ =>
        String.join
          ((ensureArray (some (jsOrElse (getField v "Sentence") v))).map
            (fun s => extractText (some s)))

/-- Test for the literal string `"1"`, modelling the strict comparison
`num !== '1'` in the paragraph renderer. -/
def isStrOne : Option XVal → Bool
  | some (.str "1") => true
  | _ => false

mutual

/-- `extractItemContent` from `src/api/parser.ts`: an item renders its
indented designator and sentence, then recursively renders its
`Subitem1 || Subitem2` children one level deeper. -/
def extractItemContent (item : XVal) (level : Nat) : String :=
  let num := getField item "@_Num"
  let indent := String.join (List.replicate level "  ")
  let sentence := getField item "ItemSentence"
  let sentenceParts :=
    if truthyOpt sentence then
      [indent ++ jsStringOpt num ++ "　" ++ extractSentenceText sentence]
    else []
  let subitems := ensureArray (jsOrOpt (getField item "Subitem1") (getField item "Subitem2"))
  String.intercalate "\n" (sentenceParts ++ extractSubitems subitems (level + 1))
termination_by 2 * xsize item
decreasing_by
  all_goals simp_wf
  all_goals have := xsizeList_ensureArray_jsOrOpt item "Subitem1" "Subitem2"
  all_goals omega

/-- `extractItemContent` mapped over a subitem list. -/
def extractSubitems : List XVal → Nat → List String
  | [], _ => []
  | x :: rest, level => extractItemContent x level :: extractSubitems rest level
termination_by xs _ => 2 * xsizeList xs + 1
decreasing_by
  all_goals simp_wf
  all_goals simp [xsizeList]
  all_goals omega

end

/-- `extractParagraphContent` from `src/api/parser.ts`: the paragraph
sentence is emitted with its number prefix (omitted for an absent number or
the literal string `"1"`), followed by the rendering of each item. -/
def extractParagraphContent (paragraph : XVal) : String :=
  let num := getField paragraph "@_Num"
  let sentence := getField paragraph "ParagraphSentence"
  let sentenceParts :=
    if truthyOpt sentence then
      [(if truthyOpt num && !(isStrOne num) then jsStringOpt num ++ "　" else "") ++
        extractSentenceText sentence]
    else []
  let items := ensureArray (getField paragraph "Item")
  String.intercalate "\n" (sentenceParts ++ items.map (fun item => extractItemContent item 1))

/-- `extractArticleContent` from `src/api/parser.ts`: caption and
title/number header lines, then every paragraph whose coerced number
matches the optional filter (all of them when no filter is supplied). -/
def extractArticleContent (article : XVal) (targetParagraph : Option Int) : String :=
  let caption := getField article "ArticleCaption"
  let title := getField article "ArticleTitle"
  let num := getField article "@_Num"
  let captionParts :=
    if truthyOpt caption then ["**" ++ extractText caption ++ "**"] else []
  let titleParts :=
    if truthyOpt title || truthyOpt num then
      let titleText :=
        if truthyOpt title then extractText title else "第" ++ jsStringOpt num ++ "条"
      ["**" ++ titleText ++ "**\n"]
    else []
  let paragraphs := ensureArray (getField article "Paragraph")
  let kept := paragraphs.filter (fun para =>
    match targetParagraph with
    | none => true
    | some t => jsNumber (getField para "@_Num") == some t)
  String.intercalate "\n" (captionParts ++ titleParts ++ kept.map extractParagraphContent)

/-- `extractSectionContent` from `src/api/parser.ts`. -/
def extractSectionContent (sec : XVal) : String :=
  let title := getField sec "SectionTitle"
  let titleParts := if truthyOpt title then ["##### " ++ extractText title ++ "\n"] else []
  let articles := ensureArray (getField sec "Article")
  String.intercalate "\n" (titleParts ++ articles.map (fun a => extractArticleContent a none))

/-- `extractChapterContent` from `src/api/parser.ts`: sections when present,
direct articles only when there is no section. -/
def extractChapterContent (chapter : XVal) : String :=
  let title := getField chapter "ChapterTitle"
  let titleParts := if truthyOpt title then ["#### " ++ extractText title ++ "\n"] else []
  let sections := ensureArray (getField chapter "Section")
  let sectionParts := sections.map extractSectionContent
  let articleParts :=
    if sections.length = 0 then
      (ensureArray (getField chapter "Article")).map (fun a => extractArticleContent a none)
    else []
  String.intercalate "\n" (titleParts ++ sectionParts ++ articleParts)

/-- `extractPartContent` from `src/api/parser.ts`. -/
def extractPartContent (part : XVal) : String :=
  let title := getField part "PartTitle"
  let titleParts := if truthyOpt title then ["### " ++ extractText title ++ "\n"] else []
  let chapters := ensureArray (getField part "Chapter")
  String.intercalate "\n" (titleParts ++ chapters.map extractChapterContent)

/-- `extractMainProvisionContent` from `src/api/parser.ts`: parts when
present; chapters and direct articles only when there is no part. -/
def extractMainProvisionContent (mainProvision : XVal) : String :=
  let partsList := ensureArray (getField mainProvision "Part")
  let partParts := partsList.map extractPartContent
  let chapterParts :=
    if partsList.length = 0 then
      (ensureArray (getField mainProvision "Chapter")).map extractChapterContent
    else []
  let articleParts :=
    if partsList.length = 0 then
      (ensureArray (getField mainProvision "Article")).map (fun a => extractArticleContent a none)
    else []
  String.intercalate "\n" (partParts ++ chapterParts ++ articleParts)

/-- `extractParagraphsText` from `src/api/parser.ts`. -/
def extractParagraphsText (node : XVal) : String :=
  String.intercalate "\n"
    ((ensureArray (getField node "Paragraph")).map extractParagraphContent)

/-- `extractSupplementaryContent` from `src/api/parser.ts`. -/
def extractSupplementaryContent (supp : XVal) : String :=
  let label := getField supp "SupplementaryProvisionLabel"
  let labelParts := if truthyOpt label then ["### " ++ extractText label ++ "\n"] else []
  let articles := ensureArray (getField supp "Article")
  String.intercalate "\n" (labelParts ++ articles.map (fun a => extractArticleContent a none))

/-- `extractLawContent` from `src/api/parser.ts`: optional preamble block,
optional main-provision block, optional supplementary-provision blocks. -/
def extractLawContent (lawBody : XVal) : String :=
  let preambleParts :=
    match getField lawBody "Preamble" with
    | some p => if truthy p then ["## 前文\n", extractParagraphsText p] else []
    | none => []
  let mainParts :=
    match getField lawBody "MainProvision" with
    | some mp => if truthy mp then ["## 本則\n", extractMainProvisionContent mp] else []
    | none => []
  let suppParts :=
    match getField lawBody "SupplementaryProvisions" with
    | some sp =>
      if truthy sp then
        "## 附則\n" :: (ensureArray (some sp)).map extractSupplementaryContent
      else []
    | none => []
  String.intercalate "\n" (preambleParts ++ mainParts ++ suppParts)

/-! ## Table of contents (`extractToc`, parser.ts 143-229) -/

/-- A table-of-contents entry: title, human-readable reference, and the
optional child list (absent when no child container kind was found). -/
inductive TocItem : Type where
  | mk (title : String) (ref : String) (children : Option (List TocItem))

/-- `getTypePrefix` from `src/api/parser.ts` (the name here avoids the
keyword-like suffix): the five container kinds are prefixed with `第`,
anything else with the empty string. -/
def typePrefixOf (type : String) : String :=
  if type = "Part" ∨ type = "Chapter" ∨ type = "Section" ∨ type = "Subsection" ∨
      type = "Article" then "第"
  else ""

mutual

/-- `extractTocItem` from `src/api/parser.ts`: a falsy node or a node with
neither `<type>Title` nor `@_Num` yields no entry; otherwise the title is
extracted, the reference is the type prefix plus the raw number, and the
children come from the first nonempty child kind. -/
def extractTocItem (node : XVal) (type : String) : Option TocItem :=
  if truthy node = false then none
  else
    let title := jsOrOpt (getField node (type ++ "Title")) (getField node "@_Num")
    if truthyOpt title = false then none
    else
      some (.mk (extractText title)
        (typePrefixOf type ++ jsString (jsOrElse (getField node "@_Num") (.str "")))
        (tocChildren node ["Chapter", "Section", "Subsection", "Article"]))
termination_by 8 * xsize node + 7
decreasing_by
  all_goals simp_wf

/-- The child-type loop of `extractTocItem`: the first child kind with a
nonempty array wins (the loop breaks), otherwise no children are set. -/
def tocChildren (node : XVal) (childTypes : List String) : Option (List TocItem) :=
  match childTypes with
  | [] => none
  | ct :: rest =>
    let children := ensureArray (getField node ct)
    if 0 < children.length then some (tocItemList children ct)
    else tocChildren node rest
termination_by 8 * xsize node + 1 + childTypes.length
decreasing_by
  all_goals simp_wf
  all_goals first
    | omega
    | (have h1 := xsizeList_ensureArray_getField node ct
       omega)

/-- `extractTocItem` mapped over a child list, dropping `null` results. -/
def tocItemList : List XVal → String → List TocItem
  | [], _ => []
  | c :: rest, ct =>
    match extractTocItem c ct with
    | some t => t :: tocItemList rest ct
    | none => tocItemList rest ct
termination_by cs _ => 8 * xsizeList cs + 8
decreasing_by
  all_goals simp_wf
  all_goals simp [xsizeList]
  all_goals omega

end

/-- `extractToc` from `src/api/parser.ts`: part and chapter entries in
order; when both are absent, direct articles are listed flat; a falsy or
missing `MainProvision` yields the empty table. -/
def extractToc (lawBody : XVal) : List TocItem :=
  match getField lawBody "MainProvision" with
  | none => []
  | some mp =>
    if truthy mp = false then []
    else
      let partItems :=
        (ensureArray (getField mp "Part")).filterMap (fun part => extractTocItem part "Part")
      let chapterItems :=
        (ensureArray (getField mp "Chapter")).filterMap
          (fun chapter => extractTocItem chapter "Chapter")
      let toc := partItems ++ chapterItems
      if toc.length = 0 then
        (ensureArray (getField mp "Article")).map (fun article =>
          TocItem.mk
            (extractText (jsOrOpt (getField article "ArticleTitle") (getField article "@_Num")))
            ("第" ++ jsStringOpt (getField article "@_Num") ++ "条")
            none)
      else toc

/-! ## Document building (`parseLawText`, parser.ts 73-100) -/

/-- The law-text document model (`LawText` in `src/api/types.ts`). -/
structure LawText : Type where
  lawId : String
  lawNumber : String
  lawName : String
  content : String
  toc : List TocItem
  fetchedAt : String

/-- The `result.DataRoot || result` / `.ApplData || ...` probing steps of
`parseLawText` and `parseArticle`. -/
def resolveApplData (result : XVal) : XVal :=
  let dataRoot := jsOrElse (getField result "DataRoot") result
  jsOrElse (getField dataRoot "ApplData") dataRoot

/-- The `.LawFullText || ...` / `.Law || ...` probing steps. -/
def resolveLawData (result : XVal) : XVal :=
  let applData := resolveApplData result
  let lawFullText := jsOrElse (getField applData "LawFullText") applData
  jsOrElse (getField lawFullText "Law") lawFullText

/-- The `lawData.LawBody || {}` step. -/
def resolveLawBody (result : XVal) : XVal :=
  jsOrElse (getField (resolveLawData result) "LawBody") (.obj [])

/-- `parseLawText` from `src/api/parser.ts`, applied to an already decoded
document; `fetchedAt` stands for the wall-clock timestamp taken there. -/
def parseLawText (result : XVal) (fetchedAt : String) : LawText :=
  let applData := resolveApplData result
  let lawData := resolveLawData result
  let lawId := jsOrElse (getField applData "LawId")
    (jsOrElse (getField lawData "@_LawId") (.str ""))
  let lawNum := jsOrElse (getField lawData "LawNum")
    (jsOrElse (getField lawData "@_LawNum") (.str ""))
  let lawBody := resolveLawBody result
  let lawTitle := jsOrElse (getField lawBody "LawTitle")
    (jsOrElse (getField lawData "LawTitle") (.str ""))
  { lawId := jsString lawId
    lawNumber := jsString lawNum
    lawName := extractText (some lawTitle)
    content := extractLawContent lawBody
    toc := extractToc lawBody
    fetchedAt := fetchedAt }

/-- Failure of the XML decoder on malformed input. -/
inductive ParseError : Type where
  | parseFailure (msg : String)
deriving DecidableEq

/-- `parseLawText` including the decoding stage: a decode failure is the
only failure, every decoded document builds a `LawText`. -/
def parseLawTextE (decoded : Except ParseError XVal) (fetchedAt : String) :
    Except ParseError LawText :=
  decoded.map (fun v => parseLawText v fetchedAt)

/-! ## Article location (`findArticle`, parser.ts 489-532) -/

mutual

/-- `findArticleRecursive` from `src/api/parser.ts`: direct `Article`
children are checked first (string-compared against the normalized
target), then the five container kinds are descended in order. -/
def findArticleRecursive (node : XVal) (targetNum : String) : Option XVal :=
  match (ensureArray (getField node "Article")).find?
      (fun a => jsStringOpt (getField a "@_Num") == targetNum) with
  | some a => some a
  | none => findInKeys node ["Part", "Chapter", "Section", "Subsection", "Division"] targetNum
termination_by 8 * xsize node + 7
decreasing_by
  all_goals simp_wf

/-- The container-kind loop of `findArticleRecursive`. -/
def findInKeys (node : XVal) (keys : List String) (targetNum : String) : Option XVal :=
  match keys with
  | [] => none
  | k :: rest =>
    match findInChildren (ensureArray (getField node k)) targetNum with
    | some a => some a
    | none => findInKeys node rest targetNum
termination_by 8 * xsize node + 1 + keys.length
decreasing_by
  all_goals simp_wf
  all_goals first
    | omega
    | (have h1 := xsizeList_ensureArray_getField node ct
       omega)

/-- The child loop of `findArticleRecursive`: first hit wins. -/
def findInChildren (cs : List XVal) (targetNum : String) : Option XVal :=
  match cs with
  | [] => none
  | c :: rest =>
    match findArticleRecursive c targetNum with
    | some a => some a
    | none => findInChildren rest targetNum
termination_by 8 * xsizeList cs + 8
decreasing_by
  all_goals simp_wf
  all_goals simp [xsizeList]
  all_goals omega

end

/-- `findArticle` from `src/api/parser.ts`: normalize the designator, then
search the `MainProvision` subtree (a falsy or absent one yields `null`). -/
def findArticle (lawBody : XVal) (targetArticle : String) : Option XVal :=
  let normalizedTarget := normalizeArticleNum targetArticle
  match getField lawBody "MainProvision" with
  | none => none
  | some mp =>
    if truthy mp = false then none
    else findArticleRecursive mp normalizedTarget

mutual

/-- Specification mirror of the search order of `findArticleRecursive`:
all articles of the subtree rooted at `node` in visiting order — direct
`Article` children first, then the articles of the `Part`, `Chapter`,
`Section`, `Subsection` and `Division` subtrees in that order. -/
def dfsArticles (node : XVal) : List XVal :=
  ensureArray (getField node "Article") ++
    dfsInKeys node ["Part", "Chapter", "Section", "Subsection", "Division"]
termination_by 8 * xsize node + 7
decreasing_by
  all_goals simp_wf

/-- Articles of the listed container kinds of `node`, in order. -/
def dfsInKeys (node : XVal) (keys : List String) : List XVal :=
  match keys with
  | [] => []
  | k :: rest => dfsInChildren (ensureArray (getField node k)) ++ dfsInKeys node rest
termination_by 8 * xsize node + 1 + keys.length
decreasing_by
  all_goals simp_wf
  all_goals first
    | omega
    | (have h1 := xsizeList_ensureArray_getField node ct
       omega)

/-- Articles of a child list, in order. -/
def dfsInChildren (cs : List XVal) : List XVal :=
  match cs with
  | [] => []
  | c :: rest => dfsArticles c ++ dfsInChildren rest
termination_by 8 * xsizeList cs + 8
decreasing_by
  all_goals simp_wf
  all_goals simp [xsizeList]
  all_goals omega

end

/-! ## Single-article extraction (`parseArticle`, parser.ts 105-138) -/

/-- An item of a paragraph (`Item` in `src/api/types.ts`). -/
structure Item : Type where
  num : String
  content : String

/-- A paragraph of an article (`Paragraph` in `src/api/types.ts`). -/
structure Paragraph : Type where
  num : Int
  content : String
  items : List Item

/-- An extracted article (`Article` in `src/api/types.ts`). -/
structure Article : Type where
  lawId : String
  articleNum : String
  articleTitle : Option String
  content : String
  paragraphs : List Paragraph

/-- `extractParagraphs` from `src/api/parser.ts`: each paragraph's number
is `Number(para['@_Num']) || 1`; with a filter, only the matching
paragraphs are kept; items carry their raw number coerced to a string. -/
def extractParagraphs (article : XVal) (targetParagraph : Option Int) : List Paragraph :=
  (ensureArray (getField article "Paragraph")).filterMap (fun para =>
    let num : Int :=
      match jsNumber (getField para "@_Num") with
      | none => 1
      | some m => if m = 0 then 1 else m
    let keep :=
      match targetParagraph with
      | none => true
      | some t => num == t
    if keep then
      some
        { num := num
          content := extractSentenceText (getField para "ParagraphSentence")
          items := (ensureArray (getField para "Item")).map (fun item =>
            { num := jsStringOpt (getField item "@_Num")
              content := extractSentenceText (getField item "ItemSentence") }) }
    else none)

/-- `parseArticle` from `src/api/parser.ts`, applied to an already decoded
document: resolve the nesting, locate the article, and build the result
(`null` when the article is missing). -/
def parseArticle (result : XVal) (targetArticle : String) (targetParagraph : Option Int) :
    Option Article :=
  let applData := resolveApplData result
  let lawData := resolveLawData result
  let lawBody := jsOrElse (getField lawData "LawBody") (.obj [])
  let lawId := jsOrElse (getField applData "LawId")
    (jsOrElse (getField lawData "@_LawId") (.str ""))
  match findArticle lawBody targetArticle with
  | none => none
  | some article =>
    some
      { lawId := jsString lawId
        articleNum := targetArticle
        articleTitle :=
          match getField article "ArticleTitle" with
          | some t => if truthy t then some (extractText (some t)) else none
          | none => none
        content := extractArticleContent article targetParagraph
        paragraphs := extractParagraphs article targetParagraph }

/-! ## Disk cache (`src/cache/law-cache.ts`) -/

/-- The three cache categories (`'lawList' | 'lawText' | 'updateList'`). -/
inductive CacheType : Type where
  | lawList
  | lawText
  | updateList
deriving DecidableEq

/-- The string each category contributes to the cache key. -/
def CacheType.toKeyString : CacheType → String
  | .lawList => "lawList"
  | .lawText => "lawText"
  | .updateList => "updateList"

/-- Per-category time-to-live configuration (`CacheConfig`), milliseconds. -/
structure CacheConfig : Type where
  lawListTtl : Nat
  lawTextTtl : Nat
  updateListTtl : Nat

/-- The constructor defaults of `LawCache` (24 h, 7 d, 1 h). -/
def DEFAULT_CACHE_CONFIG : CacheConfig :=
  { lawListTtl := 24 * 60 * 60 * 1000
    lawTextTtl := 7 * 24 * 60 * 60 * 1000
    updateListTtl := 60 * 60 * 1000 }

/-- A stored cache entry (`CacheEntry<T>`); timestamps are epoch ms. -/
structure CacheEntry (α : Type) : Type where
  data : α
  cachedAt : Nat
  expiresAt : Nat

/-- The character class `[a-zA-Z0-9\-_]` kept by the key sanitizer. -/
def isSafeChar (c : Char) : Bool :=
  ('a' ≤ c && c ≤ 'z') || ('A' ≤ c && c ≤ 'Z') || ('0' ≤ c && c ≤ '9') ||
    c = '-' || c = '_'

namespace LawCache

/-- `getCacheKey` from `src/cache/law-cache.ts`: every character outside
the safe class is replaced by `_`, and the key is
`type + "_" + safeId + ".json"`. -/
def getCacheKey (type : CacheType) (id : String) : String :=
  let safeId := String.mk (id.data.map (fun c => if isSafeChar c then c else '_'))
  type.toKeyString ++ "_" ++ safeId ++ ".json"

/-- `getCachePath`: `join(cacheDir, key)`; since keys never contain a path
separator the join is plain concatenation. -/
def getCachePath (cacheDir : String) (key : String) : String :=
  cacheDir ++ "/" ++ key

/-- `getTtl`: the fixed per-category duration. -/
def getTtl (config : CacheConfig) : CacheType → Nat
  | .lawList => config.lawListTtl
  | .lawText => config.lawTextTtl
  | .updateList => config.updateListTtl

/-- On-disk content of one cache file: a decodable entry or corrupt JSON. -/
inductive FileContent (α : Type) : Type where
  | entry : CacheEntry α → FileContent α
  | corrupt : FileContent α

/-- The cache directory as a key-indexed store of file contents. -/
def Store (α : Type) : Type := String → Option (FileContent α)

/-- `LawCache.get` (pure store model): a missing or corrupt file is a
miss, an entry with `expiresAt < now` is a miss; the store is returned
unchanged — `get` never deletes or rewrites anything. -/
def get {α : Type} (st : Store α) (type : CacheType) (id : String) (now : Nat) :
    Option α × Store α :=
  let key := getCacheKey type id
  match st key with
  | none => (none, st)
  | some .corrupt => (none, st)
  | some (.entry e) => (if e.expiresAt < now then none else some e.data, st)

/-- `LawCache.set` (pure store model): overwrite the keyed file with a
fresh entry, `cachedAt = now`, `expiresAt = now + ttl(type)`. -/
def set {α : Type} (st : Store α) (config : CacheConfig) (type : CacheType)
    (id : String) (data : α) (now : Nat) : Store α :=
  let key := getCacheKey type id
  let ttl := getTtl config type
  fun k => if k = key then some (.entry ⟨data, now, now + ttl⟩) else st k

/-- `LawCache.delete` (pure store model): remove the keyed file. -/
def delete {α : Type} (st : Store α) (type : CacheType) (id : String) : Store α :=
  fun k => if k = getCacheKey type id then none else st k

/-- `LawCache.clear` (pure store model): remove every file. -/
def clear {α : Type} : Store α := fun _ => none

/-- A filesystem fault as raised by the Node `fs` layer or `JSON.parse`. -/
inductive IOFault : Type where
  | permission
  | corruptJson
  | missingDir
  | unreadable
deriving DecidableEq

/-- Fault-injection model of the filesystem operations one cache call
performs: the `mkdir` of `ensureInitialized` (an `EEXIST` outcome is
already mapped to success, as the catch there does), `readFile`,
`JSON.parse`, and `writeFile`. -/
structure FsModel (α : Type) : Type where
  mkdirResult : Except IOFault Unit
  readResult : String → Except IOFault String
  parseEntry : String → Except IOFault (CacheEntry α)
  writeResult : String → Except IOFault Unit

/-- `LawCache.get` (fault model).  `ensureInitialized` is awaited outside
any try/catch, so a `mkdir` fault propagates; the read and parse are inside
`try { ... } catch { return null }`, so their faults become a miss. -/
def ioGet {α : Type} (fs : FsModel α) (type : CacheType) (id : String) (now : Nat) :
    Except IOFault (Option α) :=
  match fs.mkdirResult with
  | .error f => .error f
  | .ok _ =>
    .ok (match fs.readResult (getCacheKey type id) with
      | .error _ => none
      | .ok raw =>
        match fs.parseEntry raw with
        | .error _ => none
        | .ok e => if e.expiresAt < now then none else some e.data)

/-- `LawCache.set` (fault model).  `ensureInitialized` propagates `mkdir`
faults, and the final `writeFile` is not wrapped in any try/catch, so its
fault propagates to the caller as well. -/
def ioSet {α : Type} (fs : FsModel α) (type : CacheType) (id : String)
    (data : α) (now : Nat) : Except IOFault Unit :=
  match fs.mkdirResult with
  | .error f => .error f
  | .ok _ => fs.writeResult (getCacheKey type id)

end LawCache

/-! ## HTTP client (`src/api/client.ts`) -/

/-- Outcome of one network attempt, as observed inside `fetchWithRetry`:
a 200 body, a 404, another HTTP error status, or a network-layer failure
(fetch rejection or abort). -/
inductive FetchOutcome : Type where
  | httpOk (xml : String)
  | http404
  | httpError (status : Nat) (statusText : String)
  | networkError (msg : String)

/-- `ApiResponse<T>`: success with data, or failure with code and message. -/
inductive ApiResponse (α : Type) : Type where
  | success (data : α)
  | failure (code msg : String)

/-- The attempt loop of `fetchWithRetry` (client.ts 167-226), structurally
recursive on the number of attempts still allowed
(`remaining = maxRetries - attempt + 1`).  `oracle` gives the outcome of
each numbered attempt and `p` is the parsing callback (`Except.error`
models a throw).  Alongside the response the model counts the network
fetches performed.  A 404 returns `NOT_FOUND` immediately; a successful
parse returns the data; every other outcome — including a parser throw —
is caught, and the loop retries while attempts remain, finally reporting
`FETCH_ERROR` with the last caught error message. -/
def fetchLoop {α : Type} (oracle : Nat → FetchOutcome) (p : String → Except String α) :
    Nat → Nat → Option String → Nat → ApiResponse α × Nat
  | 0, _, lastError, fetches =>
    (.failure "FETCH_ERROR" (lastError.getD "リクエストに失敗しました"), fetches)
  | remaining + 1, attempt, lastError, fetches =>
    match oracle attempt with
    | .http404 => (.failure "NOT_FOUND" "リソースが見つかりませんでした", fetches + 1)
    | .httpOk xml =>
      match p xml with
      | .ok d => (.success d, fetches + 1)
      | .error e => fetchLoop oracle p remaining (attempt + 1) (some e) (fetches + 1)
    | .httpError status statusText =>
      fetchLoop oracle p remaining (attempt + 1)
        (some ("HTTP " ++ Nat.repr status ++ ": " ++ statusText)) (fetches + 1)
    | .networkError m =>
      fetchLoop oracle p remaining (attempt + 1) (some m) (fetches + 1)

/-- The `MAX_RETRIES` constant of `src/api/client.ts`. -/
def MAX_RETRIES : Nat := 3

/-- `fetchWithRetry`: run the attempt loop from attempt 1 with
`maxRetries` attempts allowed. -/
def fetchWithRetry {α : Type} (oracle : Nat → FetchOutcome)
    (p : String → Except String α) (maxRetries : Nat) : ApiResponse α × Nat :=
  fetchLoop oracle p maxRetries 1 none 0

/-- `getLawById` (client.ts 62-65): fetch the law-data URL and parse with
`parseLawText`; `decode` is the XML decoder (`none` models a decode
throw). -/
def getLawById (decode : String → Option XVal) (oracle : Nat → FetchOutcome)
    (fetchedAt : String) : ApiResponse LawText × Nat :=
  fetchWithRetry oracle
    (fun xml =>
      match decode xml with
      | none => .error "XML parse error"
      | some v => .ok (parseLawText v fetchedAt))
    MAX_RETRIES

/-- `getArticle` (client.ts 97-119): first fetch the full law text via
`getLawById`, propagating its failure; then fetch the same document again
and extract the article, the parser callback throwing (`Except.error`)
when `parseArticle` returns `null`.  The second component counts all
network fetches performed by the call. -/
def getArticle (decode : String → Option XVal) (oracle1 oracle2 : Nat → FetchOutcome)
    (lawId article : String) (paragraph : Option Int) (fetchedAt : String) :
    ApiResponse Article × Nat :=
  let r1 := getLawById decode oracle1 fetchedAt
  match r1.1 with
  | .failure code msg => (.failure code msg, r1.2)
  | .success _ =>
    let r2 := fetchWithRetry oracle2
      (fun xml =>
        match decode xml with
        | none => .error "XML parse error"
        | some v =>
          match parseArticle v article paragraph with
          | none => .error ("条文「" ++ article ++ "」が見つかりませんでした")
          | some a => .ok a)
      MAX_RETRIES
    (r2.1, r1.2 + r2.2)

/-! ## Specification-side text extraction (spec 4.5) -/

mutual

/-- Modelled from the spec: text recovery that concatenates every
descendant textual value in field order, with no special treatment of
text-node properties (spec 4.5, "recursively concatenating every
descendant textual value in field order"). -/
def specConcatAll : XVal → String
  | .str s => s
  | .num n => intRepr n
  | .arr xs => String.join (specConcatList xs)
  | .obj fs => String.join (specConcatFields fs)
termination_by v => 2 * xsize v
decreasing_by
  all_goals simp_wf
  all_goals simp [xsize]
  all_goals omega

/-- `specConcatAll` over array elements. -/
def specConcatList : List XVal → List String
  | [] => []
  | x :: rest => specConcatAll x :: specConcatList rest
termination_by xs => 2 * xsizeList xs + 1
decreasing_by
  all_goals simp_wf
  all_goals simp [xsizeList]
  all_goals omega

/-- `specConcatAll` over object field values, in field order. -/
def specConcatFields : List (String × XVal) → List String
  | [] => []
  | (_, v) :: rest => specConcatAll v :: specConcatFields rest
termination_by fs => 2 * xsizeFields fs + 1
decreasing_by
  all_goals simp_wf
  all_goals simp [xsizeFields]
  all_goals omega

end

mutual

/-- Markup-only values: no numeric node and no `#text` property anywhere
(the domain on which the code's extraction and the spec's concatenation
agree). -/
def pureMarkup : XVal → Bool
  | .str _ => true
  | .num _ => false
  | .arr xs => pureMarkupList xs
  | .obj fs => (lookupField fs "#text").isNone && pureMarkupFields fs
termination_by v => 2 * xsize v
decreasing_by
  all_goals simp_wf
  all_goals simp [xsize]
  all_goals omega

/-- `pureMarkup` over array elements. -/
def pureMarkupList : List XVal → Bool
  | [] => true
  | x :: rest => pureMarkup x && pureMarkupList rest
termination_by xs => 2 * xsizeList xs + 1
decreasing_by
  all_goals simp_wf
  all_goals simp [xsizeList]
  all_goals omega

/-- `pureMarkup` over object field values. -/
def pureMarkupFields : List (String × XVal) → Bool
  | [] => true
  | (_, v) :: rest => pureMarkup v && pureMarkupFields rest
termination_by fs => 2 * xsizeFields fs + 1
decreasing_by
  all_goals simp_wf
  all_goals simp [xsizeFields]
  all_goals omega

end

/-! ## Theorems -/

/-- Helper for claim C2: the kanji round-trip holds on all values below
one thousand. -/
theorem roundTrip_lt_1000 :
    ∀ v < 1000, 1 ≤ v → normalizeArticleNum (renderKanjiArticle v) = Nat.repr v := by
  decide

/-- Claim C2 counterexample: the numeral table has no entry for thousand,
so the designator rendering 1000 (`第千条`) normalizes to `"0"`, not
`"1000"` — the claimed bound `v ≤ 9999` fails at `v = 1000`. -/
theorem normalizeArticleNum_thousand_counterexample :
    renderKanjiArticle 1000 = "第千条" ∧
    normalizeArticleNum (renderKanjiArticle 1000) = "0" ∧
    normalizeArticleNum (renderKanjiArticle 1000) ≠ Nat.repr 1000 := by
  refine ⟨by decide, by decide, by decide⟩

/-- Claim C2 (amended): for every kanji article designator rendering a
decimal value `v` with `1 ≤ v ≤ 999`, the numeral normalizer returns the
decimal string of `v` (this includes `第十条`→`"10"`, `第百条`→`"100"`,
`第二十条`→`"20"` and `第百二十三条`→`"123"`); values of 1000 and above are
outside the table, which has no thousands entry. -/
theorem normalizeArticleNum_renderKanji_roundTrip (v : Nat) (h1 : 1 ≤ v) (h2 : v ≤ 999) :
    normalizeArticleNum (renderKanjiArticle v) = Nat.repr v :=
  roundTrip_lt_1000 v (by omega) h1

/-- Witness for claim C2's amended round-trip at `v = 123`. -/
theorem normalizeArticleNum_renderKanji_roundTrip_witness :
    1 ≤ 123 ∧ 123 ≤ 999 ∧
      normalizeArticleNum (renderKanjiArticle 123) = Nat.repr 123 :=
  ⟨by decide, by decide,
    normalizeArticleNum_renderKanji_roundTrip 123 (by decide) (by decide)⟩

/-- Claim C3: `set` followed immediately by `get` returns the stored
value, and once time has advanced strictly past the stored expiry
(`now + ttl(category)`), `get` returns a miss. -/
theorem cache_set_then_get (α : Type) (st : LawCache.Store α) (config : CacheConfig)
    (type : CacheType) (id : String) (v : α) (now later : Nat)
    (h : now + LawCache.getTtl config type < later) :
    (LawCache.get (LawCache.set st config type id v now) type id now).1 = some v ∧
    (LawCache.get (LawCache.set st config type id v now) type id later).1 = none := by
  constructor
  · simp only [LawCache.get, LawCache.set, if_pos rfl]
    rw [if_neg (by omega)]
  · simp only [LawCache.get, LawCache.set, if_pos rfl]
    rw [if_pos h]

/-- Witness for claim C3 with the default configuration. -/
theorem cache_set_then_get_witness :
    (LawCache.get
        (LawCache.set (fun _ => none) DEFAULT_CACHE_CONFIG .lawText "129AC0000000089"
          (42 : Nat) 1000)
        .lawText "129AC0000000089" 1000).1 = some 42 ∧
    (LawCache.get
        (LawCache.set (fun _ => none) DEFAULT_CACHE_CONFIG .lawText "129AC0000000089"
          (42 : Nat) 1000)
        .lawText "129AC0000000089" 700000000000).1 = none :=
  cache_set_then_get Nat (fun _ => none) DEFAULT_CACHE_CONFIG .lawText "129AC0000000089"
    42 1000 700000000000
    (by norm_num [LawCache.getTtl, DEFAULT_CACHE_CONFIG])

/-- Claim C5 counterexample: expiry uses the strict comparison
`expiresAt < now`, so at `now = expiresAt` the entry is still served — the
claimed miss at `now >= expiresAt` fails on the boundary. -/
theorem cache_get_at_expiry_counterexample :
    (LawCache.get
        (fun k => if k = LawCache.getCacheKey .lawText "x" then
          some (.entry ⟨(42 : Nat), 0, 100⟩) else none)
        .lawText "x" 100).1 = some 42 ∧
    some 42 ≠ (none : Option Nat) := by
  constructor
  · simp [LawCache.get]
  · simp

/-- Claim C5 (amended): when `now` is strictly past the entry's
`expiresAt`, `get` returns a miss and leaves the store untouched (for any
arguments, `get` never modifies the store); the stale file disappears only
through an explicit `delete` (or `clear`). -/
theorem cache_get_expired (α : Type) (st : LawCache.Store α) (type : CacheType)
    (id : String) (now : Nat) (e : CacheEntry α)
    (hread : st (LawCache.getCacheKey type id) = some (.entry e))
    (hexp : e.expiresAt < now) :
    (LawCache.get st type id now).1 = none ∧
    (LawCache.get st type id now).2 = st ∧
    LawCache.delete st type id (LawCache.getCacheKey type id) = none ∧
    @LawCache.clear α (LawCache.getCacheKey type id) = none := by
  refine ⟨?_, ?_, ?_, rfl⟩
  · simp only [LawCache.get, hread]
    rw [if_pos hexp]
  · simp only [LawCache.get, hread]
  · simp [LawCache.delete]

/-- Witness for claim C5's amended statement at `now = 101`. -/
theorem cache_get_expired_witness :
    (LawCache.get
        (fun k => if k = LawCache.getCacheKey .lawText "x" then
          some (.entry ⟨(42 : Nat), 0, 100⟩) else none)
        .lawText "x" 101).1 = none :=
  (cache_get_expired Nat
    (fun k => if k = LawCache.getCacheKey .lawText "x" then
      some (.entry ⟨(42 : Nat), 0, 100⟩) else none)
    .lawText "x" 101 ⟨42, 0, 100⟩ (by simp) (by norm_num)).1

/-- Claim C4 counterexample: `set` performs its `writeFile` outside any
try/catch, so a permission fault on the write propagates to the caller
instead of completing as a no-op. -/
theorem cache_set_write_fault_counterexample :
    LawCache.ioSet
      { mkdirResult := .ok ()
        readResult := fun _ => .error .unreadable
        parseEntry := fun _ => .error .corruptJson
        writeResult := fun _ => .error .permission : LawCache.FsModel Nat }
      .lawText "id" (0 : Nat) 0 = .error .permission ∧
    Except.error LawCache.IOFault.permission ≠ (.ok () : Except LawCache.IOFault Unit) := by
  constructor
  · rfl
  · simp

/-- Claim C4 (amended): once the cache directory is initialized, `get`
swallows every read and parse fault and always returns a result — and on
an unreadable file or corrupt JSON that result is precisely a miss
(`none`); `set` reduces to the bare `writeFile`, whose fault propagates;
a directory-initialization fault propagates from both `get` and `set`. -/
theorem cache_fault_propagation (α : Type) (fs : LawCache.FsModel α)
    (type : CacheType) (id : String) (data : α) (now : Nat) :
    (fs.mkdirResult = .ok () → ∃ r, LawCache.ioGet fs type id now = .ok r) ∧
    (fs.mkdirResult = .ok () →
      ∀ f, fs.readResult (LawCache.getCacheKey type id) = .error f →
        LawCache.ioGet fs type id now = .ok none) ∧
    (fs.mkdirResult = .ok () →
      ∀ raw f, fs.readResult (LawCache.getCacheKey type id) = .ok raw →
        fs.parseEntry raw = .error f →
        LawCache.ioGet fs type id now = .ok none) ∧
    (fs.mkdirResult = .ok () →
      LawCache.ioSet fs type id data now = fs.writeResult (LawCache.getCacheKey type id)) ∧
    (∀ f, fs.mkdirResult = .error f →
      LawCache.ioGet fs type id now = .error f ∧
      LawCache.ioSet fs type id data now = .error f) := by
  refine ⟨?_, ?_, ?_, ?_, ?_⟩
  · intro h
    refine ⟨(match fs.readResult (LawCache.getCacheKey type id) with
      | .error _ => none
      | .ok raw =>
        match fs.parseEntry raw with
        | .error _ => none
        | .ok e => if e.expiresAt < now then none else some e.data), ?_⟩
    simp [LawCache.ioGet, h]
  · intro h f hread
    simp [LawCache.ioGet, h, hread]
  · intro h raw f hread hparse
    simp [LawCache.ioGet, h, hread, hparse]
  · intro h
    simp [LawCache.ioSet, h]
  · intro f h
    constructor
    · simp [LawCache.ioGet, h]
    · simp [LawCache.ioSet, h]

/-- Witness for claim C4's amended statement: with a readable directory,
an unreadable file gives a plain miss, and so does a readable file whose
JSON is corrupt. -/
theorem cache_fault_propagation_witness :
    LawCache.ioGet
      { mkdirResult := .ok ()
        readResult := fun _ => .error .unreadable
        parseEntry := fun _ => .error .corruptJson
        writeResult := fun _ => .ok () : LawCache.FsModel Nat }
      .lawText "x" 0 = .ok none ∧
    LawCache.ioGet
      { mkdirResult := .ok ()
        readResult := fun _ => .ok "garbage"
        parseEntry := fun _ => .error .corruptJson
        writeResult := fun _ => .ok () : LawCache.FsModel Nat }
      .lawText "x" 0 = .ok none :=
  ⟨(cache_fault_propagation Nat
      { mkdirResult := .ok ()
        readResult := fun _ => .error .unreadable
        parseEntry := fun _ => .error .corruptJson
        writeResult := fun _ => .ok () }
      .lawText "x" 0 0).2.1 rfl .unreadable rfl,
    (cache_fault_propagation Nat
      { mkdirResult := .ok ()
        readResult := fun _ => .ok "garbage"
        parseEntry := fun _ => .error .corruptJson
        writeResult := fun _ => .ok () }
      .lawText "x" 0 0).2.2.1 rfl "garbage" .corruptJson rfl rfl⟩

/-- Safe characters never collide with a path separator. -/
theorem isSafeChar_not_separator {c : Char} (h : isSafeChar c = true) :
    c ≠ '/' ∧ c ≠ '\\' := by
  constructor
  · rintro rfl
    simp [isSafeChar] at h
  · rintro rfl
    simp [isSafeChar] at h

/-- Claim C10: every cache key has the shape
`category ++ "_" ++ s ++ ".json"` with `s` drawn from `[A-Za-z0-9_-]`,
hence contains no path separator, and the cache path is the key placed
directly inside the cache directory. -/
theorem getCacheKey_safe (type : CacheType) (id cacheDir : String) :
    (∃ s, LawCache.getCacheKey type id = type.toKeyString ++ "_" ++ s ++ ".json" ∧
      ∀ c ∈ s.data, isSafeChar c = true) ∧
    (∀ c ∈ (LawCache.getCacheKey type id).data, c ≠ '/' ∧ c ≠ '\\') ∧
    LawCache.getCachePath cacheDir (LawCache.getCacheKey type id) =
      cacheDir ++ "/" ++ LawCache.getCacheKey type id := by
  have hsafe : ∀ c ∈ (String.mk (id.data.map
      (fun c => if isSafeChar c then c else '_'))).data, isSafeChar c = true := by
    intro c hc
    simp only [String.mk] at hc
    rcases List.mem_map.mp hc with ⟨a, _, ha⟩
    by_cases hs : isSafeChar a
    · rw [← ha]; simp [hs]
    · rw [← ha]; simp [hs]; decide
  refine ⟨⟨_, rfl, hsafe⟩, ?_, rfl⟩
  intro c hc
  have hdata : (LawCache.getCacheKey type id).data =
      type.toKeyString.data ++ "_".data ++
        (String.mk (id.data.map (fun c => if isSafeChar c then c else '_'))).data ++
        ".json".data := by
    simp [LawCache.getCacheKey, String.data_append]
  rw [hdata] at hc
  simp only [List.mem_append] at hc
  rcases hc with ((h1 | h2) | h3) | h4
  · cases type <;> revert c h1 <;> decide
  · revert c h2; decide
  · exact isSafeChar_not_separator (hsafe c h3)
  · revert c h4; decide

/-- Witness for claim C10: a raw identifier with a slash and a hash is
sanitized into a flat `.json` file name. -/
theorem getCacheKey_safe_witness :
    LawCache.getCachePath "/root/.cache/egov-law-mcp"
        (LawCache.getCacheKey .lawText "a/b#c") =
      "/root/.cache/egov-law-mcp" ++ "/" ++ LawCache.getCacheKey .lawText "a/b#c" ∧
    LawCache.getCacheKey .lawText "a/b#c" = "lawText_a_b_c.json" :=
  ⟨(getCacheKey_safe .lawText "a/b#c" "/root/.cache/egov-law-mcp").2.2, by decide⟩

/-- A decoded sample law document with a single Article `1`, used to
exercise the client on an article-missing lookup. -/
def sampleLawDoc : XVal :=
  .obj [("Law", .obj [
    ("@_LawId", .str "129AC0000000089"),
    ("LawNum", .str "明治二十九年法律第八十九号"),
    ("LawBody", .obj [
      ("LawTitle", .str "民法"),
      ("MainProvision", .obj [
        ("Article", .arr [
          .obj [("@_Num", .str "1"),
                ("ArticleTitle", .str "第一条"),
                ("Paragraph", .arr [
                  .obj [("@_Num", .str "1"),
                        ("ParagraphSentence",
                          .obj [("Sentence", .arr [.str "本文"])])]])]])])])])]

/-- Claim C6 counterexample: looking up `第五条` in a document whose only
article is `1`, with every network attempt succeeding, the client performs
4 fetches in total — 1 for the full text and 3 for the article phase,
because the article-missing throw is caught by the retry loop and retried
twice more — and reports `FETCH_ERROR`, not a terminal first-occurrence
outcome (which would have cost a single article-phase fetch, 2 in total). -/
theorem getArticle_missing_retry_counterexample :
    getArticle (fun _ => some sampleLawDoc) (fun _ => .httpOk "x") (fun _ => .httpOk "x")
        "129AC0000000089" "第五条" none "t" =
      (.failure "FETCH_ERROR" "条文「第五条」が見つかりませんでした", 4) ∧
    (4 : Nat) ≠ 2 := by
  have hn : normalizeArticleNum "第五条" = "5" := by decide
  constructor
  · simp [getArticle, getLawById, fetchWithRetry, fetchLoop, MAX_RETRIES, parseArticle,
      findArticle, hn, sampleLawDoc, resolveApplData, resolveLawData, getField, lookupField,
      jsOrElse, truthy, ensureArray, findArticleRecursive, findInKeys, findInChildren,
      jsStringOpt, jsString]
  · decide

/-- Helper for claim C6: when every attempt fetches successfully but the
parser callback always throws the same message, the loop consumes its
whole attempt budget, one fetch per attempt, and reports `FETCH_ERROR`
with that message. -/
theorem fetchLoop_const_error {α : Type} (oracle : Nat → FetchOutcome)
    (p : String → Except String α) (xmlBody emsg : String)
    (ho : ∀ n, oracle n = .httpOk xmlBody) (hp : p xmlBody = .error emsg) :
    ∀ remaining attempt lastError fetches, 1 ≤ remaining →
      fetchLoop oracle p remaining attempt lastError fetches =
        (.failure "FETCH_ERROR" emsg, fetches + remaining) := by
  intro remaining
  induction remaining with
  | zero => intro _ _ _ h; omega
  | succ r ih =>
    intro attempt lastError fetches _
    rcases Nat.eq_zero_or_pos r with rfl | hr
    · simp [fetchLoop, ho, hp]
    · simp only [fetchLoop, ho, hp]
      rw [ih (attempt + 1) (some emsg) (fetches + 1) hr]
      have harith : fetches + 1 + r = fetches + (r + 1) := by omega
      rw [harith]

/-- Claim C6 (amended): an article-missing outcome is not terminal — the
parser callback's throw is caught inside the retry loop, so the client
retries it like a network failure, performing one fresh fetch per attempt
until the budget is spent and then reporting `FETCH_ERROR` with the
missing-article message; only an HTTP 404 response is terminal on its
first occurrence, with exactly one fetch. -/
theorem fetch_article_missing_retries {α : Type}
    (oracle oracle404 : Nat → FetchOutcome) (p p2 : String → Except String α)
    (xmlBody emsg : String) (maxR : Nat)
    (ho : ∀ n, oracle n = .httpOk xmlBody)
    (hp : p xmlBody = Except.error emsg)
    (hmax : 1 ≤ maxR)
    (h404 : oracle404 1 = .http404) :
    fetchWithRetry oracle p maxR = (.failure "FETCH_ERROR" emsg, maxR) ∧
    fetchWithRetry oracle404 p2 maxR =
      (.failure "NOT_FOUND" "リソースが見つかりませんでした", 1) := by
  constructor
  · simp only [fetchWithRetry]
    rw [fetchLoop_const_error oracle p xmlBody emsg ho hp maxR 1 none 0 hmax]
    rw [Nat.zero_add]
  · simp only [fetchWithRetry]
    cases maxR with
    | zero => omega
    | succ r => simp [fetchLoop, h404]

/-- Witness for claim C6's amended statement at a 3-attempt budget. -/
theorem fetch_article_missing_retries_witness :
    fetchWithRetry (fun _ => FetchOutcome.httpOk "x")
        (fun _ => (Except.error "m" : Except String Nat)) 3 =
      (.failure "FETCH_ERROR" "m", 3) ∧
    fetchWithRetry (fun _ => FetchOutcome.http404)
        (fun _ => (Except.error "m" : Except String Nat)) 3 =
      (.failure "NOT_FOUND" "リソースが見つかりませんでした", 1) :=
  fetch_article_missing_retries (fun _ => .httpOk "x") (fun _ => .http404)
    (fun _ => .error "m") (fun _ => .error "m") "x" "m" 3
    (fun _ => rfl) rfl (by decide) rfl

/-- Replacing an article's `Paragraph` field by the subsequence of
paragraphs whose coerced number equals `p` (the statement-side projection
compared against the renderer's built-in filter). -/
def filterParagraphs (article : XVal) (p : Int) : XVal :=
  match article with
  | .obj fs => .obj (fs.map (fun kv =>
      if kv.1 = "Paragraph" then
        (kv.1, .arr ((ensureArray (some kv.2)).filter
          (fun para => jsNumber (getField para "@_Num") == some p)))
      else kv))
  | v => v

/-- An Article with two Paragraphs, numbered `1` and `2`. -/
def exampleTwoParagraphArticle : XVal :=
  .obj [("Paragraph", .arr [
    .obj [("@_Num", .str "1"),
          ("ParagraphSentence", .obj [("Sentence", .arr [.str "first-text"])])],
    .obj [("@_Num", .str "2"),
          ("ParagraphSentence", .obj [("Sentence", .arr [.str "second-text"])])]])]

/-- Key-preserving rewrites of the `Paragraph` field leave every other
lookup unchanged. -/
theorem lookupField_map_paragraph_ne (fs : List (String × XVal)) (g : XVal → XVal)
    (key : String) (hkey : key ≠ "Paragraph") :
    lookupField (fs.map (fun kv =>
      if kv.1 = "Paragraph" then (kv.1, g kv.2) else kv)) key = lookupField fs key := by
  induction fs with
  | nil => rfl
  | cons kv rest ih =>
    obtain ⟨k, v⟩ := kv
    simp only [List.map_cons]
    by_cases hk : k = "Paragraph"
    · subst hk
      rw [if_pos rfl]
      have hne : ¬("Paragraph" = key) := fun h => hkey h.symm
      simp only [lookupField]
      rw [if_neg hne, if_neg hne]
      exact ih
    · rw [if_neg hk]
      simp only [lookupField]
      by_cases hk2 : k = key
      · rw [if_pos hk2, if_pos hk2]
      · rw [if_neg hk2, if_neg hk2]
        exact ih

/-- Looking up `Paragraph` after the rewrite yields the rewritten value. -/
theorem lookupField_map_paragraph (fs : List (String × XVal)) (g : XVal → XVal) :
    lookupField (fs.map (fun kv =>
      if kv.1 = "Paragraph" then (kv.1, g kv.2) else kv)) "Paragraph" =
      (lookupField fs "Paragraph").map g := by
  induction fs with
  | nil => rfl
  | cons kv rest ih =>
    obtain ⟨k, v⟩ := kv
    simp only [List.map_cons]
    by_cases hk : k = "Paragraph"
    · subst hk
      rw [if_pos rfl]
      simp [lookupField]
    · rw [if_neg hk]
      simp only [lookupField]
      rw [if_neg hk, if_neg hk]
      exact ih

/-- Fields other than `Paragraph` are untouched by `filterParagraphs`. -/
theorem getField_filterParagraphs_ne (article : XVal) (p : Int) (key : String)
    (hkey : key ≠ "Paragraph") :
    getField (filterParagraphs article p) key = getField article key := by
  cases article with
  | obj fs =>
    exact lookupField_map_paragraph_ne fs
      (fun v => XVal.arr ((ensureArray (some v)).filter
        (fun para => jsNumber (getField para "@_Num") == some p)))
      key hkey
  | str s => rfl
  | num n => rfl
  | arr xs => rfl

/-- The `Paragraph` field of `filterParagraphs` is the filtered array. -/
theorem getField_filterParagraphs (article : XVal) (p : Int) :
    getField (filterParagraphs article p) "Paragraph" =
      (getField article "Paragraph").map (fun v =>
        XVal.arr ((ensureArray (some v)).filter
          (fun para => jsNumber (getField para "@_Num") == some p))) := by
  cases article with
  | obj fs =>
    exact lookupField_map_paragraph fs
      (fun v => XVal.arr ((ensureArray (some v)).filter
        (fun para => jsNumber (getField para "@_Num") == some p)))
  | str s => rfl
  | num n => rfl
  | arr xs => rfl

/-- Claim C9: rendering an article under a single-paragraph filter equals
rendering the article whose `Paragraph` list is first restricted to the
paragraphs with the requested number — every other paragraph's output is
suppressed; in particular, the two-paragraph article under `paragraph = 2`
emits only the second paragraph's line. -/
theorem extractArticleContent_paragraph_filter (article : XVal) (p : Int) :
    extractArticleContent article (some p) =
      extractArticleContent (filterParagraphs article p) none ∧
    extractArticleContent exampleTwoParagraphArticle (some 2) = "2　second-text" := by
  have h1 : jsNumber (some (.str "1")) = some 1 := by decide
  have h2 : jsNumber (some (.str "2")) = some 2 := by decide
  constructor
  · simp only [extractArticleContent]
    rw [getField_filterParagraphs_ne article p "ArticleCaption" (by decide)]
    rw [getField_filterParagraphs_ne article p "ArticleTitle" (by decide)]
    rw [getField_filterParagraphs_ne article p "@_Num" (by decide)]
    rw [getField_filterParagraphs article p]
    cases hpar : getField article "Paragraph" with
    | none => simp [ensureArray]
    | some v => simp [ensureArray]
  · simp [extractArticleContent, exampleTwoParagraphArticle, getField, lookupField,
      ensureArray, truthyOpt, truthy, h1, h2, extractParagraphContent, isStrOne,
      jsStringOpt, jsString, extractSentenceText, jsOrElse, extractText, extractItemContent]
    decide

/-- Claim C7: a decoded document with no article data builds a placeholder
`LawText` instead of failing — with no (truthy) `Preamble`,
`MainProvision` or `SupplementaryProvisions` the rendered content is empty
and the table of contents is empty; with a `MainProvision` holding no
parts, chapters or articles the content is the bare section heading and
the table of contents is empty; decoding is the only failure source, and
every decoded document yields a `LawText`. -/
theorem parseLawText_no_articles (v : XVal) (fetchedAt : String) (err : ParseError)
    (mp : XVal) :
    ((truthyOpt (getField (resolveLawBody v) "Preamble") = false →
      truthyOpt (getField (resolveLawBody v) "MainProvision") = false →
      truthyOpt (getField (resolveLawBody v) "SupplementaryProvisions") = false →
      (parseLawText v fetchedAt).content = "" ∧ (parseLawText v fetchedAt).toc = []) ∧
    (getField (resolveLawBody v) "MainProvision" = some mp → truthy mp = true →
      truthyOpt (getField (resolveLawBody v) "Preamble") = false →
      truthyOpt (getField (resolveLawBody v) "SupplementaryProvisions") = false →
      ensureArray (getField mp "Part") = [] →
      ensureArray (getField mp "Chapter") = [] →
      ensureArray (getField mp "Article") = [] →
      (parseLawText v fetchedAt).content = "## 本則\n\n" ∧
        (parseLawText v fetchedAt).toc = [])) ∧
    parseLawTextE (.error err) fetchedAt = .error err ∧
    (∃ lt, parseLawTextE (.ok v) fetchedAt = .ok lt) := by
  refine ⟨⟨?_, ?_⟩, rfl, ⟨_, rfl⟩⟩
  · intro hP hM hS
    have hcontent : (parseLawText v fetchedAt).content =
        extractLawContent (resolveLawBody v) := rfl
    have htoc : (parseLawText v fetchedAt).toc = extractToc (resolveLawBody v) := rfl
    rw [hcontent, htoc]
    constructor
    · rcases hp : getField (resolveLawBody v) "Preamble" with _ | pv <;>
        rcases hm : getField (resolveLawBody v) "MainProvision" with _ | mv <;>
          rcases hs : getField (resolveLawBody v) "SupplementaryProvisions" with _ | sv <;>
            rw [hp] at hP <;> rw [hm] at hM <;> rw [hs] at hS <;>
              simp only [truthyOpt] at hP hM hS <;>
                simp [extractLawContent, hp, hm, hs, hP, hM, hS] <;> rfl
    · rcases hm : getField (resolveLawBody v) "MainProvision" with _ | mv
      · simp [extractToc, hm]
      · rw [hm] at hM
        simp only [truthyOpt] at hM
        simp [extractToc, hm, hM]
  · intro hm hmp hP hS hpart hchap hart
    have hcontent : (parseLawText v fetchedAt).content =
        extractLawContent (resolveLawBody v) := rfl
    have htoc : (parseLawText v fetchedAt).toc = extractToc (resolveLawBody v) := rfl
    rw [hcontent, htoc]
    have hmain : extractMainProvisionContent mp = "" := by
      simp [extractMainProvisionContent, hpart, hchap, hart]; rfl
    constructor
    · rcases hp : getField (resolveLawBody v) "Preamble" with _ | pv <;>
        rcases hs : getField (resolveLawBody v) "SupplementaryProvisions" with _ | sv <;>
          rw [hp] at hP <;> rw [hs] at hS <;>
            simp only [truthyOpt] at hP hS <;>
              simp [extractLawContent, hp, hm, hs, hP, hS, hmp, hmain] <;> decide
    · simp [extractToc, hm, hmp, hpart, hchap, hart]

/-- Witness for claim C7: the empty document and a document with an empty
`MainProvision` both build placeholder results without failing. -/
theorem parseLawText_no_articles_witness :
    ((parseLawText (.obj []) "t").content = "" ∧ (parseLawText (.obj []) "t").toc = []) ∧
    ((parseLawText (.obj [("LawBody", .obj [("MainProvision", .obj [])])]) "t").content =
        "## 本則\n\n" ∧
      (parseLawText (.obj [("LawBody", .obj [("MainProvision", .obj [])])]) "t").toc = []) := by
  constructor
  · exact (parseLawText_no_articles (.obj []) "t" (.parseFailure "") (.obj [])).1.1
      (by simp [resolveLawBody, resolveLawData, resolveApplData, jsOrElse, getField,
        lookupField, truthyOpt])
      (by simp [resolveLawBody, resolveLawData, resolveApplData, jsOrElse, getField,
        lookupField, truthyOpt])
      (by simp [resolveLawBody, resolveLawData, resolveApplData, jsOrElse, getField,
        lookupField, truthyOpt])
  · exact (parseLawText_no_articles (.obj [("LawBody", .obj [("MainProvision", .obj [])])])
      "t" (.parseFailure "") (.obj [])).1.2
      (by simp [resolveLawBody, resolveLawData, resolveApplData, jsOrElse, getField,
        lookupField, truthy])
      (by simp [truthy])
      (by simp [resolveLawBody, resolveLawData, resolveApplData, jsOrElse, getField,
        lookupField, truthyOpt, truthy])
      (by simp [resolveLawBody, resolveLawData, resolveApplData, jsOrElse, getField,
        lookupField, truthyOpt, truthy])
      (by simp [ensureArray, getField, lookupField])
      (by simp [ensureArray, getField, lookupField])
      (by simp [ensureArray, getField, lookupField])

/-- Claim C8 counterexample: on a wrapper carrying both a text node and a
sibling field, extraction returns only the text node's value (`"a"`),
while concatenating every descendant textual value in field order would
give `"ab"`. -/
theorem extractText_text_node_counterexample :
    extractText (some (.obj [("#text", .str "a"), ("Rt", .str "b")])) = "a" ∧
    specConcatAll (.obj [("#text", .str "a"), ("Rt", .str "b")]) = "ab" ∧
    ("a" : String) ≠ "ab" := by
  refine ⟨?_, ?_, by decide⟩
  · simp [extractText, truthy, lookupField, jsString]
  · simp [specConcatAll, specConcatFields, specConcatList]
    decide

/-- Helper for claim C8: on markup-only values (no numeric nodes, no text
node properties), the code's extraction and the spec's everything-in-order
concatenation agree, at every recursion entry point. -/
theorem pureMarkup_extract_aux :
    ∀ N : Nat,
      (∀ v : XVal, xsize v ≤ N → pureMarkup v = true →
        extractText (some v) = specConcatAll v ∧ extractVal v = specConcatAll v) ∧
      (∀ xs : List XVal, xsizeList xs ≤ N → pureMarkupList xs = true →
        extractValList xs = specConcatList xs ∧ extractTextList xs = specConcatList xs) ∧
      (∀ fs : List (String × XVal), xsizeFields fs ≤ N → pureMarkupFields fs = true →
        extractValFields fs = specConcatFields fs) := by
  intro N
  induction N with
  | zero =>
    refine ⟨?_, ?_, ?_⟩
    · intro v hv _
      have := xsize_pos v
      omega
    · intro xs hxs _
      cases xs with
      | nil => constructor <;> simp [extractValList, extractTextList, specConcatList]
      | cons x rest =>
        simp [xsizeList] at hxs
    · intro fs hfs _
      cases fs with
      | nil => simp [extractValFields, specConcatFields]
      | cons kv rest =>
        obtain ⟨k, v⟩ := kv
        simp [xsizeFields] at hfs
  | succ N ih =>
    obtain ⟨ihV, ihL, ihF⟩ := ih
    refine ⟨?_, ?_, ?_⟩
    · intro v hv hpure
      cases v with
      | str s =>
        rcases eq_or_ne s "" with rfl | hs
        · constructor <;> simp [extractText, extractVal, specConcatAll, truthy]
        · constructor <;> simp [extractText, extractVal, specConcatAll, truthy, hs]
      | num n => simp [pureMarkup] at hpure
      | arr xs =>
        have hsize : xsizeList xs ≤ N := by
          simp [xsize] at hv
          omega
        have hpl : pureMarkupList xs = true := by simpa [pureMarkup] using hpure
        obtain ⟨hVL, hTL⟩ := ihL xs hsize hpl
        constructor
        · simp [extractText, specConcatAll, truthy, hVL]
        · simp [extractVal, specConcatAll, hTL]
      | obj fs =>
        have hsize : xsizeFields fs ≤ N := by
          simp [xsize] at hv
          omega
        have hpure2 : (lookupField fs "#text").isNone = true ∧ pureMarkupFields fs = true := by
          simpa [pureMarkup] using hpure
        have hnone : lookupField fs "#text" = none :=
          Option.isNone_iff_eq_none.mp hpure2.1
        have hF := ihF fs hsize hpure2.2
        have hT : extractText (some (.obj fs)) = specConcatAll (.obj fs) := by
          simp [extractText, specConcatAll, truthy, hnone, hF]
        have hv2 : extractVal (.obj fs) = extractText (some (.obj fs)) := by
          simp [extractVal]
        exact ⟨hT, hv2.trans hT⟩
    · intro xs hxs hpure
      cases xs with
      | nil => constructor <;> simp [extractValList, extractTextList, specConcatList]
      | cons x rest =>
        have hx : xsize x ≤ N := by
          simp [xsizeList] at hxs
          omega
        have hrest : xsizeList rest ≤ N := by
          simp [xsizeList] at hxs
          omega
        have hp : pureMarkup x = true ∧ pureMarkupList rest = true := by
          simpa [pureMarkupList] using hpure
        obtain ⟨hVT, hVV⟩ := ihV x hx hp.1
        obtain ⟨hL1, hL2⟩ := ihL rest hrest hp.2
        constructor
        · simp [extractValList, specConcatList, hVV, hL1]
        · simp [extractTextList, specConcatList, hVT, hL2]
    · intro fs hfs hpure
      cases fs with
      | nil => simp [extractValFields, specConcatFields]
      | cons kv rest =>
        obtain ⟨k, v⟩ := kv
        have hv : xsize v ≤ N := by
          simp [xsizeFields] at hfs
          omega
        have hrest : xsizeFields rest ≤ N := by
          simp [xsizeFields] at hfs
          omega
        have hp : pureMarkup v = true ∧ pureMarkupFields rest = true := by
          simpa [pureMarkupFields] using hpure
        obtain ⟨_, hVV⟩ := ihV v hv hp.1
        have hF := ihF rest hrest hp.2
        simp [extractValFields, specConcatFields, hVV, hF]

/-- Claim C8 (amended): extraction recovers a leaf field's text by
recursively concatenating every descendant textual value in field order on
markup-only wrappers — but a wrapper carrying a truthy text node yields
only that text node's coerced value, ignoring its sibling fields. -/
theorem extractText_markup_concat (v t : XVal) (fs : List (String × XVal)) :
    (pureMarkup v = true → extractText (some v) = specConcatAll v) ∧
    (lookupField fs "#text" = some t → truthy t = true →
      extractText (some (.obj fs)) = jsString t) := by
  constructor
  · intro h
    exact ((pureMarkup_extract_aux (xsize v)).1 v le_rfl h).1
  · intro hl ht
    simp [extractText, hl, ht]
    intro h
    simp [truthy] at h

/-- Witness for claim C8's amended statement: a markup-only wrapper is
concatenated in order, and a `#text` wrapper collapses to its text. -/
theorem extractText_markup_concat_witness :
    extractText (some (.obj [("Sentence", .arr [.str "x", .str "y"])])) =
      specConcatAll (.obj [("Sentence", .arr [.str "x", .str "y"])]) ∧
    extractText (some (.obj [("#text", .str "a"), ("Rt", .str "b")])) =
      jsString (.str "a") :=
  ⟨(extractText_markup_concat (.obj [("Sentence", .arr [.str "x", .str "y"])])
      (.str "a") [("#text", .str "a"), ("Rt", .str "b")]).1
      (by simp [pureMarkup, pureMarkupFields, pureMarkupList, lookupField]),
    (extractText_markup_concat (.obj [("Sentence", .arr [.str "x", .str "y"])])
      (.str "a") [("#text", .str "a"), ("Rt", .str "b")]).2
      (by simp [lookupField]) (by simp [truthy])⟩

/-- The `MainProvision` of the locator example: two chapters holding
articles `1`,`2` and `20`,`100` respectively. -/
def exampleMainProvision : XVal :=
  .obj [("Chapter", .arr [
    .obj [("ChapterTitle", .str "第一章"),
          ("Article", .arr [
            .obj [("@_Num", .str "1"), ("ArticleCaption", .str "c1")],
            .obj [("@_Num", .str "2"), ("ArticleCaption", .str "c2")]])],
    .obj [("ChapterTitle", .str "第二章"),
          ("Article", .arr [
            .obj [("@_Num", .str "20"), ("ArticleCaption", .str "c20")],
            .obj [("@_Num", .str "100"), ("ArticleCaption", .str "c100")]])]])]

/-- A law body carrying the example `MainProvision`. -/
def exampleLawBody : XVal := .obj [("MainProvision", exampleMainProvision)]

/-- Helper for claim C1: the recursive search returns exactly the first
article, in the depth-first visiting order recorded by `dfsArticles`
(direct articles before descent, container kinds in their fixed order),
whose raw ordinal string equals the target. -/
theorem findArticleRecursive_eq_dfs :
    ∀ (node : XVal) (t : String),
      findArticleRecursive node t =
        (dfsArticles node).find? (fun a => jsStringOpt (getField a "@_Num") == t) := by
  intro node t
  refine findArticleRecursive.induct
    (fun node t => findArticleRecursive node t =
      (dfsArticles node).find? (fun a => jsStringOpt (getField a "@_Num") == t))
    (fun node keys t => findInKeys node keys t =
      (dfsInKeys node keys).find? (fun a => jsStringOpt (getField a "@_Num") == t))
    (fun cs t => findInChildren cs t =
      (dfsInChildren cs).find? (fun a => jsStringOpt (getField a "@_Num") == t))
    ?_ ?_ ?_ ?_ ?_ ?_ ?_ ?_ node t
  · intro node t a h
    simp [findArticleRecursive, dfsArticles, List.find?_append, h]
  · intro node t h ih
    simp [findArticleRecursive, dfsArticles, List.find?_append, h, ih]
  · intro node t
    simp [findInKeys, dfsInKeys]
  · intro node t k rest a h ih
    have h2 := h
    rw [ih] at h2
    simp [findInKeys, dfsInKeys, List.find?_append, h, h2]
  · intro node t k rest h ih ih2
    have h2 := h
    rw [ih] at h2
    simp [findInKeys, dfsInKeys, List.find?_append, h, h2, ih2]
  · intro t
    simp [findInChildren, dfsInChildren]
  · intro t x rest a h ih
    have h2 := h
    rw [ih] at h2
    simp [findInChildren, dfsInChildren, List.find?_append, h, h2]
  · intro t x rest h ih ih2
    have h2 := h
    rw [ih] at h2
    simp [findInChildren, dfsInChildren, List.find?_append, h, h2, ih2]

/-- Claim C1: the locator normalizes the designator, then returns the
first article in depth-first order — direct `Article` children of each
container before its nested containers — whose ordinal equals the
normalized target; a tree with no matching article anywhere yields `null`,
as does a missing `MainProvision`; and on the two-chapter example with
ordinals `1`,`2`,`20`,`100`, locating `第二十条` returns the article with
ordinal `20`, not `2`. -/
theorem findArticle_spec (node lawBody mp : XVal) (d : String) :
    findArticleRecursive node (normalizeArticleNum d) =
      (dfsArticles node).find?
        (fun a => jsStringOpt (getField a "@_Num") == normalizeArticleNum d) ∧
    (getField lawBody "MainProvision" = some mp → truthy mp = true →
      (∀ a ∈ dfsArticles mp, jsStringOpt (getField a "@_Num") ≠ normalizeArticleNum d) →
      findArticle lawBody d = none) ∧
    (getField lawBody "MainProvision" = none → findArticle lawBody d = none) ∧
    findArticle exampleLawBody "第二十条" =
      some (.obj [("@_Num", .str "20"), ("ArticleCaption", .str "c20")]) := by
  refine ⟨findArticleRecursive_eq_dfs node _, ?_, ?_, ?_⟩
  · intro hm hmp hnone
    simp only [findArticle, hm, hmp]
    simp only [Bool.true_eq_false, if_false]
    rw [findArticleRecursive_eq_dfs]
    refine List.find?_eq_none.mpr ?_
    intro x hx
    simpa using hnone x hx
  · intro hm
    simp [findArticle, hm]
  · have hn : normalizeArticleNum "第二十条" = "20" := by decide
    simp [findArticle, exampleLawBody, exampleMainProvision, getField, lookupField,
      truthy, hn, findArticleRecursive, findInKeys, findInChildren, ensureArray,
      jsStringOpt, jsString]

/-- Witness for claim C1: locating an ordinal absent from the whole
example tree yields `null`. -/
theorem findArticle_spec_witness : findArticle exampleLawBody "第九百条" = none := by
  have hmp : getField exampleLawBody "MainProvision" = some exampleMainProvision := by
    simp [exampleLawBody, getField, lookupField]
  have hdfs : dfsArticles exampleMainProvision =
      [.obj [("@_Num", .str "1"), ("ArticleCaption", .str "c1")],
       .obj [("@_Num", .str "2"), ("ArticleCaption", .str "c2")],
       .obj [("@_Num", .str "20"), ("ArticleCaption", .str "c20")],
       .obj [("@_Num", .str "100"), ("ArticleCaption", .str "c100")]] := by
    simp [exampleMainProvision, dfsArticles, dfsInKeys, dfsInChildren, ensureArray,
      getField, lookupField]
  exact (findArticle_spec exampleMainProvision exampleLawBody exampleMainProvision
    "第九百条").2.1 hmp (by simp [exampleMainProvision, truthy])
    (by rw [hdfs]; decide)

end Egov
